import Mathlib

/-!
Verification development for the scuffed-orm schema registry.

The repository carries two generations of the `PTSchema` class.  Namespace
`V1` embeds the generation that aggregates validation problems into a
`SchemaValidationErrors` record, renders BEGIN/END auto-generation banners
and offers `generateDropSQL` (src/unnamed/part_001).  Namespace `V2` embeds
the generation whose `addTable` rejects duplicate table names, deduplicates
the primary-key list and validates the single table before registering it
(src/unnamed/part_002).  The type catalog (`psql_types`) and the string
utilities (`util`) are shared by both and embedded once.

JavaScript objects are modelled as association lists with the insertion
semantics of string-keyed objects: assigning to an existing key replaces the
value in place (the key keeps its original position), assigning to a fresh
key appends it.  JavaScript `Set`s are modelled as lists without duplicates,
in first-insertion order.
-/

namespace ScuffedORM

/-- `Array.prototype.join(sep)`: empty list gives `""`, no trailing separator. -/
def joinSep (sep : String) : List String → String
  | [] => ""
  | [x] => x
  | x :: y :: rest => x ++ sep ++ joinSep sep (y :: rest)

/-- `util.ts` `newlinePad`: pad a nonempty string with two newlines. -/
def newlinePad (s : String) : String :=
  if s.length != 0 then s ++ "\n\n" else ""

/-- JavaScript regex `\w`: ASCII letters, digits and underscore. -/
def isWordChar (c : Char) : Bool :=
  c.isAlphanum || c == '_'

/-- Character-level engine of `util.ts` `toCamelCase`: each non-overlapping
match of `/_(\w)/` is replaced by the upper-cased captured character. -/
def camelChars : List Char → List Char
  | [] => []
  | '_' :: c :: rest =>
    if isWordChar c then c.toUpper :: camelChars rest
    else '_' :: camelChars (c :: rest)
  | c :: rest => c :: camelChars rest

/-- `util.ts` `toCamelCase`. -/
def toCamelCase (s : String) : String :=
  String.mk (camelChars s.data)

/-- `util.ts` `toPascalCase`: upper-case the first character, camel-case the rest. -/
def toPascalCase (s : String) : String :=
  match s.data with
  | [] => ""
  | c :: rest => String.mk (c.toUpper :: camelChars rest)

/-- JavaScript `Set` built by iterating a list: keep the first occurrence of
each element, in insertion order.  `seen` holds elements already in the set. -/
def dedupAux (seen : List String) : List String → List String
  | [] => []
  | x :: xs =>
    if x ∈ seen then dedupAux seen xs
    else x :: dedupAux (seen ++ [x]) xs

/-- `[...new Set(l)]`. -/
def dedupKeepFirst (l : List String) : List String :=
  dedupAux [] l

/-- JavaScript object assignment `m[k] = v`: replace in place if the key
exists, append otherwise. -/
def jsObjInsert (m : List (String × α)) (k : String) (v : α) : List (String × α) :=
  match m with
  | [] => [(k, v)]
  | (k', v') :: rest =>
    if k' == k then (k', v) :: rest
    else (k', v') :: jsObjInsert rest k v

/-- JavaScript object read `m[k]` (association lists built by `jsObjInsert`
have unique keys, so first match is the match). -/
def lookupFirst (m : List (String × α)) (k : String) : Option α :=
  (m.find? (fun p => p.1 == k)).map (fun p => p.2)

/-- The closed catalog of `TSSQLType` variants from `psql_types.ts`.
`UserDefined` carries the enum name and its value set (first-occurrence
deduplicated, as produced by `new Set(values)` in the `Enum` constructor). -/
inductive ValueType where
  | UUID
  | SmallInt
  | Integer
  | BigIntT
  | Real
  | Double
  | SmallSerial
  | Serial
  | BigSerial
  | Timestamp
  | Text
  | Boolean
  | VarChar (length : Nat)
  | Char (length : Nat)
  | UserDefined (name : String) (values : List String)
deriving DecidableEq, Repr

/-- The `key` discriminator field of each `TSSQLType` variant. -/
def ValueType.key : ValueType → String
  | .UUID => "UUID"
  | .SmallInt => "SmallInt"
  | .Integer => "Integer"
  | .BigIntT => "BigInt"
  | .Real => "Real"
  | .Double => "Double"
  | .SmallSerial => "SmallSerial"
  | .Serial => "Serial"
  | .BigSerial => "BigSerial"
  | .Timestamp => "Timestamp"
  | .Text => "Text"
  | .Boolean => "Boolean"
  | .VarChar _ => "VarChar"
  | .Char _ => "Char"
  | .UserDefined _ _ => "UserDefinedType"

/-- The `sqlName` field of each `TSSQLType` variant. -/
def ValueType.sqlName : ValueType → String
  | .UUID => "UUID"
  | .SmallInt => "SMALLINT"
  | .Integer => "INTEGER"
  | .BigIntT => "BIGINT"
  | .Real => "REAL"
  | .Double => "DOUBLE PRECISION"
  | .SmallSerial => "SMALLSERIAL"
  | .Serial => "SERIAL"
  | .BigSerial => "BIGSERIAL"
  | .Timestamp => "TIMESTAMP WITHOUT TIME ZONE"
  | .Text => "TEXT"
  | .Boolean => "BOOLEAN"
  | .VarChar n => "VARCHAR(" ++ toString n ++ ")"
  | .Char n => "CHAR(" ++ toString n ++ ")"
  | .UserDefined name _ => name

/-- The `typeScriptName` field of each `TSSQLType` variant. -/
def ValueType.typeScriptName : ValueType → String
  | .UUID => "string"
  | .SmallInt => "number"
  | .Integer => "number"
  | .BigIntT => "BigInt"
  | .Real => "number"
  | .Double => "number"
  | .SmallSerial => "number"
  | .Serial => "number"
  | .BigSerial => "number"
  | .Timestamp => "string"
  | .Text => "string"
  | .Boolean => "boolean"
  | .VarChar _ => "string"
  | .Char _ => "string"
  | .UserDefined name _ => toPascalCase name

/-- The `Enum({name, values})` constructor: stores the values as a `Set`. -/
def Enum (name : String) (values : List String) : ValueType :=
  .UserDefined name (dedupKeepFirst values)

/-- The `values` field of an enum variant (`[]` on the other variants,
whose objects carry no such field). -/
def ValueType.enumValues : ValueType → List String
  | .UserDefined _ values => values
  | _ => []

/-- A single-quote character, as a string. -/
def sqQuote : String := String.singleton (Char.ofNat 39)

/-- `a` is contained in `b` (as sets of strings). -/
def subsetB (a b : List String) : Bool :=
  a.all (fun x => b.contains x)

/-- Node `deepStrictEqual` compares `Set` instances as unordered collections. -/
def setEqB (a b : List String) : Bool :=
  subsetB a b && subsetB b a

/-- Node `assert.deepStrictEqual` on two `TSSQLType` values: field-by-field
structural comparison.  Scalar and parametrized variants are deep-equal
exactly when they are the same variant with the same parameters (their
`key`/`sqlName`/`typeScriptName` fields are determined by that); enum
variants compare the name and the value `Set` (order-insensitively). -/
def vtDeepEq : ValueType → ValueType → Bool
  | .UserDefined n1 v1, .UserDefined n2 v2 => n1 == n2 && setEqB v1 v2
  | a, b => a == b

/-- A literal JavaScript value usable in a column default (the embedding
restricts `type: "value"` defaults to strings, integers and booleans). -/
inductive JSLit where
  | str (s : String)
  | num (n : Int)
  | boolVal (b : Bool)
deriving DecidableEq, Repr

/-- A column `Default`: either a literal value or a raw-SQL expression. -/
inductive Default where
  | value (v : JSLit)
  | rawSql (s : String)
deriving DecidableEq, Repr

/-- A `Column`: value type, nullability flag (absent means `false`) and
optional default. -/
structure Column where
  type : ValueType
  nullable : Bool := false
  dflt : Option Default := none
deriving DecidableEq, Repr

/-- `addTable`'s custom-type registration, shared verbatim by both class
generations: for every column whose type's `key` is `"UserDefinedType"`,
assign `customTypes[type.sqlName] = type` (in column order). -/
def registerEnumColumns (m : List (String × ValueType))
    (columns : List (String × Column)) : List (String × ValueType) :=
  (columns.filter (fun p => p.2.type.key == "UserDefinedType")).foldl
    (fun acc p => jsObjInsert acc p.2.type.sqlName p.2.type) m

/-- The `sqlName`s of a column list's enumeration-typed columns, in column
order: exactly the keys `registerEnumColumns` writes, in write order. -/
def enumColNames (cols : List (String × Column)) : List String :=
  cols.filterMap (fun p =>
    if p.2.type.key == "UserDefinedType" then some p.2.type.sqlName else none)

/-- How a sequence of `jsObjInsert` writes evolves an object's key list:
a fresh key is appended, an existing key stays where it is. -/
def keyFoldL (ks : List String) (ns : List String) : List String :=
  ns.foldl (fun acc n => if n ∈ acc then acc else acc ++ [n]) ks

/-- The value left under key `n` by `registerEnumColumns`'s write sequence
for one column list: the type of the last enumeration-typed column whose
`sqlName` is `n` (the last write to a key wins). -/
def lastTypeWritten (cols : List (String × Column)) (n : String) :
    Option ValueType :=
  match cols with
  | [] => none
  | p :: rest =>
    match lastTypeWritten rest n with
    | some ty => some ty
    | none =>
      if p.2.type.key == "UserDefinedType" && p.2.type.sqlName == n then
        some p.2.type
      else none

namespace V1

/-- A `ForeignKey` (src/unnamed/part_001 data model): local/foreign column
pairs, the referenced table's name, and optional mutate actions. -/
structure FKey where
  columns : List (String × String)
  table : String
  onDelete : Option String := none
  onUpdate : Option String := none
deriving DecidableEq, Repr

/-- A `Table`: SQL name, TypeScript type name, ordered column map,
primary-key column names, foreign keys and named check constraints. -/
structure Table where
  name : String
  typeName : String
  columns : List (String × Column)
  primaryKeys : List String
  foreignKeys : List FKey := []
  constraints : List (String × String) := []
deriving DecidableEq, Repr

/-- The aggregated validation report (`SchemaValidationErrors`):
schema-level errors plus per-table error lists keyed by table name. -/
structure SchemaValidationErrors where
  errors : List String
  perTableErrors : List (String × List String)
deriving DecidableEq, Repr

/-- The `PTSchema` registry state: ordered tables, extension set, derived
custom-type map, and the two indent options. -/
structure PTSchema where
  tables : List Table := []
  extensions : List String := []
  customTypes : List (String × ValueType) := []
  sqlIndentOpt : Nat := 2
  tsIndentOpt : Nat := 2
deriving DecidableEq, Repr

/-- A fresh `new PTSchema()` with default options. -/
def emptySchema : PTSchema := {}

/-- `this.sqlIndent()`. -/
def PTSchema.sqlIndent (s : PTSchema) : String :=
  String.mk (List.replicate s.sqlIndentOpt ' ')

/-- `this.tsIndent()`. -/
def PTSchema.tsIndent (s : PTSchema) : String :=
  String.mk (List.replicate s.tsIndentOpt ' ')

/-- `extension(name)`: idempotent insert into the extension `Set`. -/
def PTSchema.extension (s : PTSchema) (name : String) : PTSchema :=
  if name ∈ s.extensions then s
  else { s with extensions := s.extensions ++ [name] }

/-- part_001 `addTable`: register the enum-typed columns into the
custom-type map and append the table.  This generation performs no check
at registration time. -/
def addTable (s : PTSchema) (t : Table) : PTSchema :=
  { s with
    customTypes := registerEnumColumns s.customTypes t.columns,
    tables := s.tables ++ [t] }

/-- `addTables(tables)`. -/
def addTables (s : PTSchema) (ts : List Table) : PTSchema :=
  ts.foldl addTable s

/-- `columnExists(table, name)`: `table.columns[name] !== undefined`. -/
def columnExists (t : Table) (name : String) : Bool :=
  (lookupFirst t.columns name).isSome

/-- Duplicate-column pass of `validateTable`: walk `Object.keys(columns)`
with a seen-`Set`, pushing an error for every repeated name. -/
def colLoop (tname : String) (seen : List String) (errs : List String) :
    List String → List String
  | [] => errs
  | n :: ns =>
    let errs' :=
      if n ∈ seen then
        errs ++ ["Duplicate column \"" ++ n ++ "\" in table " ++ tname]
      else errs
    colLoop tname (seen ++ [n]) errs' ns

/-- Primary-key pass of `validateTable`: missing primary key, then one
error per primary-key name that names no column. -/
def pkPass (t : Table) (errs : List String) : List String :=
  let e1 :=
    if t.primaryKeys.length == 0 then
      errs ++ ["Table \"" ++ t.name ++ "\" must have a primary key"]
    else errs
  t.primaryKeys.foldl
    (fun acc k =>
      if columnExists t k then acc
      else acc ++ ["Table \"" ++ t.name ++ "\" is missing column \"" ++ k ++
        "\" for primary key constraint"])
    e1

/-- The flattened stream of foreign-key column pairs the nested
`forEach` loops of `validateTable` walk: `(referenced table, local, foreign)`. -/
def fkPairs (t : Table) : List (String × String × String) :=
  (t.foreignKeys.map (fun fk => fk.columns.map (fun p => (fk.table, p.1, p.2)))).foldr
    (· ++ ·) []

/-- `this.tables.filter((t) => t.name !== table.name).find((t) => t.name
=== fKey.table && this.columnExists(t, foreign))`. -/
def findForeignTable (s : PTSchema) (t : Table) (tbl foreign : String) :
    Option Table :=
  (s.tables.filter (fun tt => tt.name ≠ t.name)).find?
    (fun tt => tt.name == tbl && columnExists tt foreign)

/-- The type-mismatch error message of part_001 `validateTable`
(faithful to the source, including its missing spaces and the `foriegn`
typo elsewhere). -/
def mismatchMsg (tname lcl foreign ftname : String) : String :=
  "Invalid foreign key constraint: type of column" ++ lcl ++
    " in table " ++ tname ++ " does not match type of column " ++ foreign ++
    " in table " ++ ftname

/-- Foreign-key pass of `validateTable`: one step per `(table, local,
foreign)` pair, threading the `localColsSeen` set and the error list.  Each
failed check `return`s (skips the rest of the checks for that pair only). -/
def fkLoop (s : PTSchema) (t : Table) (seen : List String)
    (errs : List String) : List (String × String × String) → List String
  | [] => errs
  | (tbl, lcl, foreign) :: rest =>
    match lookupFirst t.columns lcl with
    | none =>
      fkLoop s t seen
        (errs ++ ["Local column \"" ++ lcl ++ "\" not found for table \"" ++
          t.name ++ "\""]) rest
    | some localCol =>
      if lcl ∈ seen then
        fkLoop s t seen
          (errs ++ ["Column \"" ++ lcl ++ "\" in table \"" ++ t.name ++
            "\" cannot appear in more than one foriegn key"]) rest
      else
        match findForeignTable s t tbl foreign with
        | none =>
          fkLoop s t (seen ++ [lcl])
            (errs ++ ["No foreign table with title \"" ++ tbl ++
              "\" and column \"" ++ foreign ++ "\" exists"]) rest
        | some ft =>
          let errs' :=
            if ((lookupFirst ft.columns foreign).map (fun c =>
                  vtDeepEq c.type localCol.type)).getD false then
              errs
            else errs ++ [mismatchMsg t.name lcl foreign ft.name]
          fkLoop s t (seen ++ [lcl]) errs' rest

/-- part_001 `validateTable`: the three passes in order, pushing into one
error array. -/
def validateTable (s : PTSchema) (t : Table) : List String :=
  fkLoop s t [] (pkPass t (colLoop t.name [] [] (t.columns.map (fun p => p.1))))
    (fkPairs t)

/-- The duplicate-column errors of a table, in isolation. -/
def colErrs (t : Table) : List String :=
  colLoop t.name [] [] (t.columns.map (fun p => p.1))

/-- The primary-key errors of a table, in isolation. -/
def pkErrs (t : Table) : List String :=
  pkPass t []

/-- The foreign-key errors of a table, in isolation. -/
def fkErrs (s : PTSchema) (t : Table) : List String :=
  fkLoop s t [] [] (fkPairs t)

/-- The `forEach` body of part_001 `validate`: skip (and record) tables
whose name was already seen, otherwise run `validateTable` and file a
nonempty result under the table's name. -/
def valLoop (s : PTSchema) (seen : List String) (errs : List String)
    (ptes : List (String × List String)) : List Table → SchemaValidationErrors
  | [] => ⟨errs, ptes⟩
  | t :: rest =>
    if t.name ∈ seen then
      valLoop s seen (errs ++ ["Table \"" ++ t.name ++ "\" already exists."])
        ptes rest
    else
      let ve := validateTable s t
      valLoop s (seen ++ [t.name]) errs
        (if ve.length > 0 then jsObjInsert ptes t.name ve else ptes) rest

/-- part_001 `validate`: `undefined` when no problem was found, the
aggregated report otherwise. -/
def validate (s : PTSchema) : Option SchemaValidationErrors :=
  let r := valLoop s [] [] [] s.tables
  if r.errors.length > 0 || r.perTableErrors.length > 0 then some r else none

/-- `genSQLType`: render a custom type as `CREATE TYPE … AS ENUM (…);`.
On a non-enum the source throws (`UnsupportedTypeError`); that branch is
unreachable for registries built through `addTable`, whose custom-type map
only ever receives `UserDefined` values, and is mapped to `""` here. -/
def genSQLType (ty : ValueType) : String :=
  match ty with
  | .UserDefined name values =>
    "CREATE TYPE " ++ name ++ " AS ENUM (" ++
      joinSep (", ") (values.map (fun t => sqQuote ++ t ++ sqQuote)) ++ ");"
  | _ => ""

/-- `genTypeScriptType`: render a custom type as an `export const …Values`
array plus an `export type` union.  Non-enum: see `genSQLType`. -/
def genTypeScriptType (ty : ValueType) : String :=
  match ty with
  | .UserDefined _ _ =>
    let arrayName := ty.typeScriptName ++ "Values"
    "export const " ++ arrayName ++ " = [" ++
      joinSep (", ") (((ty.enumValues).map (fun v => "\"" ++ v ++ "\""))) ++
      "] as const;" ++ "\n" ++
      "export type " ++ ty.typeScriptName ++ " = typeof " ++ arrayName ++
      "[number];"
  | _ => ""

/-- `sqlAutoGenNotice(begin)`. -/
def sqlAutoGenNotice (b : Bool) : String :=
  (if b then "" else "\n") ++ "--\n-- " ++ (if b then "BEGIN" else "END") ++
    " AUTO GENERATED CONTENT BY scuffed-orm -- DO NOT EDIT\n--\n"

/-- `tsAutoGenNotice(begin)`. -/
def tsAutoGenNotice (b : Bool) : String :=
  (if b then "" else "\n") ++ "/*\n * " ++ (if b then "BEGIN" else "END") ++
    " AUTO GENERATED CONTENT BY scuffed-orm -- DO NOT EDIT\n */\n"

/-- The rendered default clause of a column (part_001: string literals are
double-quoted, other literals and raw SQL are emitted verbatim). -/
def defaultString (d : Option Default) : String :=
  match d with
  | none => ""
  | some (.value (.str v)) => " DEFAULT \"" ++ v ++ "\""
  | some (.value (.num n)) => " DEFAULT " ++ toString n
  | some (.value (.boolVal b)) => " DEFAULT " ++ (cond b ("true") ("false"))
  | some (.rawSql v) => " DEFAULT " ++ v

/-- One rendered column line of a `CREATE TABLE` statement. -/
def sqlColumnLine (s : PTSchema) (p : String × Column) : String :=
  s.sqlIndent ++ p.1 ++ " " ++ p.2.type.sqlName ++
    (if p.2.nullable then "" else " NOT NULL") ++ defaultString p.2.dflt

/-- One rendered `FOREIGN KEY … REFERENCES …` clause. -/
def sqlFKeyClause (s : PTSchema) (fk : FKey) : String :=
  joinSep (" ")
    [s.sqlIndent ++ "FOREIGN KEY",
     "(" ++ joinSep (", ") (fk.columns.map (fun p => p.1)) ++ ")",
     "REFERENCES",
     fk.table,
     "(" ++ joinSep (", ") (fk.columns.map (fun p => p.2)) ++ ")\n",
     s.sqlIndent ++ " ON DELETE " ++ fk.onDelete.getD ("NO ACTION") ++ "\n",
     s.sqlIndent ++ " ON UPDATE " ++ fk.onUpdate.getD ("NO ACTION")]

/-- One rendered `CREATE TABLE` statement of part_001 `generateSQLSchema`. -/
def sqlTableDef (s : PTSchema) (t : Table) : String :=
  "CREATE TABLE " ++ t.name ++ " (\n" ++
    joinSep (",\n") (t.columns.map (sqlColumnLine s)) ++
    (if t.primaryKeys.length > 0 then
      ",\n\n" ++ s.sqlIndent ++ "PRIMARY KEY (" ++
        joinSep (", ") t.primaryKeys ++ ")"
    else "") ++
    (if t.foreignKeys.length > 0 then
      ",\n" ++ joinSep (",\n") (t.foreignKeys.map (sqlFKeyClause s))
    else "") ++
    (if t.constraints.length > 0 then
      ",\n" ++ joinSep (",\n")
        (t.constraints.map (fun p =>
          s.sqlIndent ++ "CONSTRAINT " ++ p.1 ++ " CHECK " ++ p.2))
    else "") ++
    "\n);"

/-- The extensions block of `generateSQLSchema`. -/
def sqlExtensionsBlock (s : PTSchema) : String :=
  joinSep ("\n") (s.extensions.map
    (fun e => "CREATE EXTENSION IF NOT EXISTS \"" ++ e ++ "\";"))

/-- The custom-type block of `generateSQLSchema`: one `CREATE TYPE` per
entry of the custom-type map, in key insertion order. -/
def sqlTypeDefsBlock (s : PTSchema) : String :=
  (joinSep ("\n") (s.customTypes.map (fun p => genSQLType p.2))).trim

/-- The table block of `generateSQLSchema`. -/
def sqlTableDefsBlock (s : PTSchema) : String :=
  (joinSep ("\n\n") (s.tables.map (sqlTableDef s))).trim

/-- part_001 `generateSQLSchema`: re-validate, then banners around the
extensions, custom-type and table blocks.  A validation failure returns the
`SchemaValidationErrors` report instead of a rendered script. -/
def generateSQLSchema (s : PTSchema) : Except SchemaValidationErrors String :=
  match validate s with
  | some errors => .error errors
  | none =>
    .ok (sqlAutoGenNotice true ++ newlinePad (sqlExtensionsBlock s) ++
      newlinePad (sqlTypeDefsBlock s) ++ sqlTableDefsBlock s ++
      sqlAutoGenNotice false)

/-- The enum-column pick of part_001 `generateTypeScript`: walk a table's
columns with the `seenTypes` set, keeping each not-yet-seen enum type and
adding its `sqlName` to the set (the filter callback mutates the set). -/
def tsPickLoop (seen : List String) :
    List (String × Column) → List ValueType × List String
  | [] => ([], seen)
  | (_, c) :: rest =>
    if c.type.key == "UserDefinedType" && !(seen.contains c.type.sqlName) then
      let r := tsPickLoop (seen ++ [c.type.sqlName]) rest
      (c.type :: r.1, r.2)
    else tsPickLoop seen rest

/-- The per-table groups of picked enum types, threading `seenTypes` across
tables in insertion order. -/
def tsScanTables (seen : List String) :
    List Table → List (List ValueType) × List String
  | [] => ([], seen)
  | t :: rest =>
    let g := tsPickLoop seen t.columns
    let gs := tsScanTables g.2 rest
    (g.1 :: gs.1, gs.2)

/-- The custom-type block of `generateTypeScript`: per-table rendered
groups, empty groups filtered out, joined by blank lines. -/
def tsCustomTypeDefsBlock (s : PTSchema) : String :=
  (joinSep ("\n\n")
    (((tsScanTables [] s.tables).1.map
        (fun g => joinSep ("\n\n") (g.map genTypeScriptType))).filter
      (fun x => x.length > 0))).trim

/-- One rendered `export type` record of `generateTypeScript`. -/
def tsTableTypeDef (s : PTSchema) (t : Table) : String :=
  "export type " ++ t.typeName ++ " = \x7b\n" ++
    joinSep ("\n")
      (t.columns.map (fun p =>
        s.tsIndent ++ toCamelCase p.1 ++ ": " ++ p.2.type.typeScriptName ++
          (if p.2.nullable then " | null" else "") ++ ";")) ++
    "\n\x7d;"

/-- The table block of `generateTypeScript`. -/
def tsTableDefsBlock (s : PTSchema) : String :=
  joinSep ("\n\n") (s.tables.map (tsTableTypeDef s))

/-- part_001 `generateTypeScript`: re-validate, then banners around the
enum and record type blocks. -/
def generateTypeScript (s : PTSchema) : Except SchemaValidationErrors String :=
  match validate s with
  | some errors => .error errors
  | none =>
    .ok (tsAutoGenNotice true ++ newlinePad (tsCustomTypeDefsBlock s) ++
      tsTableDefsBlock s ++ tsAutoGenNotice false)

/-- The `DROP TABLE` statements, one per table in reverse insertion order. -/
def dropTableStmts (s : PTSchema) : List String :=
  s.tables.reverse.map (fun t => "DROP TABLE IF EXISTS " ++ t.name ++ ";")

/-- The `DROP TYPE` statements, one per custom-type key in insertion order. -/
def dropTypeStmts (s : PTSchema) : List String :=
  s.customTypes.map (fun p => "DROP TYPE IF EXISTS " ++ p.1 ++ ";")

/-- The `DROP EXTENSION` statements, one per extension in insertion order. -/
def dropExtensionStmts (s : PTSchema) : List String :=
  s.extensions.map (fun e => "DROP EXTENSION IF EXISTS \"" ++ e ++ "\";")

/-- part_001 `generateDropSQL`: tables (reversed), then types, then
extensions.  Note: unlike the two other generators, it runs no validation. -/
def generateDropSQL (s : PTSchema) : String :=
  joinSep ("\n") (dropTableStmts s) ++ "\n" ++
    joinSep ("\n") (dropTypeStmts s) ++ "\n" ++
    joinSep ("\n") (dropExtensionStmts s)

/-- The three generation methods, as registry operations. -/
inductive GenOp where
  | sql
  | ts
  | drop
deriving DecidableEq, Repr

/-- The output of one generation method on a registry state (`generateDropSQL`
cannot fail and always yields its script). -/
def genOutput (s : PTSchema) : GenOp → Except SchemaValidationErrors String
  | .sql => generateSQLSchema s
  | .ts => generateTypeScript s
  | .drop => .ok (generateDropSQL s)

/-- One generation method run against the mutable registry, returning its
output and the post-call registry state.  The method bodies of part_001
assign to no field of `this` (they only read `tables`, `extensions`,
`customTypes` and `options` and build local strings and sets), so the
state-passing translation returns the receiver unchanged. -/
def runGen (s : PTSchema) (op : GenOp) :
    Except SchemaValidationErrors String × PTSchema :=
  (genOutput s op, s)

/-- A sequence of generation calls against the registry, threading the
registry state through every call. -/
def runGens (s : PTSchema) :
    List GenOp → List (Except SchemaValidationErrors String) × PTSchema
  | [] => ([], s)
  | op :: rest =>
    let r := runGen s op
    let rs := runGens r.2 rest
    (r.1 :: rs.1, rs.2)

/-- The enum names used by a table's columns, in column order. -/
def tableEnumNames (t : Table) : List String :=
  enumColNames t.columns

/-- The enum names used across a table list, tables in insertion order and
columns in declaration order — the full write stream into `customTypes`
along an `addTables` run, and the scan stream of `generateTypeScript`. -/
def allEnumNames (ts : List Table) : List String :=
  (ts.map tableEnumNames).foldr (· ++ ·) []

/-- The names of the enum declarations `generateTypeScript` emits, in
emission order (the concatenation of the per-table picked groups). -/
def tsPickedNames (ts : List Table) : List String :=
  (((tsScanTables [] ts).1).map (fun g => g.map ValueType.sqlName)).foldr
    (· ++ ·) []

end V1

namespace V2

/-- A `ForeignKey` of the part_002 data model: referenced table and column
(the local column is the key under which the entry sits in the table's
`foreignKeys` object). -/
structure FKRef where
  table : String
  column : String
deriving DecidableEq, Repr

/-- A `Table` of the part_002 data model: `foreignKeys` is an object keyed
by local column name. -/
structure Table where
  name : String
  typeName : String
  columns : List (String × Column)
  primaryKeys : List String
  foreignKeys : List (String × FKRef) := []
deriving DecidableEq, Repr

/-- The part_002 `PTSchema` registry state. -/
structure PTSchema where
  tables : List Table := []
  extensions : List String := []
  customTypes : List (String × ValueType) := []
  sqlIndentOpt : Nat := 2
  tsIndentOpt : Nat := 2
deriving DecidableEq, Repr

/-- A fresh `new PTSchema()` with default options. -/
def emptySchema : PTSchema := {}

/-- `columnExists(table, name)`. -/
def columnExists (t : Table) (name : String) : Bool :=
  (lookupFirst t.columns name).isSome

/-- Duplicate-column loop of part_002 `validate`: returns the first
duplicate name's error, if any. -/
def dupColLoop (tname : String) (seen : List String) :
    List String → Option String
  | [] => none
  | n :: ns =>
    if n ∈ seen then
      some ("Duplicate column \"" ++ n ++ "\" in table " ++ tname)
    else dupColLoop tname (seen ++ [n]) ns

/-- Foreign-key loop of part_002 `validate`: first failing check wins.
The source compares the two column types with `!==` (JavaScript reference
equality); the embedding compares the `ValueType` values structurally,
which coincides with reference equality whenever type objects are shared
rather than re-constructed. -/
def fkLoop (s : PTSchema) (t : Table) (seen : List String) :
    List (String × FKRef) → Option String
  | [] => none
  | (col, key) :: rest =>
    match lookupFirst t.columns col with
    | none =>
      some ("Local column \"" ++ col ++ "\" not found for table \"" ++
        t.name ++ "\"")
    | some localCol =>
      if col ∈ seen then
        some ("Duplicate foreign key \"" ++ col ++ "\" found in table \"" ++
          t.name ++ "\"")
      else
        match (s.tables.filter (fun tt => tt.name ≠ t.name)).find?
            (fun tt => tt.name == key.table && columnExists tt key.column) with
        | none =>
          some ("No foreign table with title \"" ++ key.table ++
            "\" and column \"" ++ key.column ++ "\" exists")
        | some ft =>
          if ((lookupFirst ft.columns key.column).map (fun c => c.type)) ≠
              some localCol.type then
            some ("Column type mismatch on foreign key \"" ++ col ++
              "\" in table \"" ++ t.name ++ "\"")
          else fkLoop s t (seen ++ [col]) rest

/-- part_002 `validate(table)`: single-table validation returning the
first problem found (duplicate column, then missing primary key, then
primary key naming no column, then the foreign-key checks). -/
def validate (s : PTSchema) (t : Table) : Option String :=
  match dupColLoop t.name [] (t.columns.map (fun p => p.1)) with
  | some e => some e
  | none =>
    if t.primaryKeys.length == 0 then
      some ("Table \"" ++ t.name ++ "\" must have a primary key")
    else
      match t.primaryKeys.find? (fun k => !(columnExists t k)) with
      | some k =>
        some ("Table \"" ++ t.name ++ "\" is missing column \"" ++ k ++
          "\" for primary key constraint")
      | none => fkLoop s t [] t.foreignKeys

/-- part_002 `addTable`, as a state transformer returning the registry
state after the call and the thrown error message, if any.  The duplicate
name check runs first, before any mutation; then the table's own
primary-key list is deduplicated (`[...new Set(...)]`); then single-table
validation; only on success are the enum columns registered and the table
appended. -/
def addTable (s : PTSchema) (t : Table) : PTSchema × Option String :=
  if s.tables.any (fun tt => tt.name == t.name) then
    (s, some ("Table with name \"" ++ t.name ++ "\" already exists"))
  else
    let t' := { t with primaryKeys := dedupKeepFirst t.primaryKeys }
    match validate s t' with
    | some e => (s, some e)
    | none =>
      ({ s with
          customTypes := registerEnumColumns s.customTypes t'.columns,
          tables := s.tables ++ [t'] }, none)

/-- The rendered `PRIMARY KEY` clause of part_002 `generateSQLSchema`
(only emitted when the stored list is nonempty). -/
def pkClause (indent : String) (pks : List String) : String :=
  if pks.length > 0 then
    ",\n\n" ++ indent ++ "PRIMARY KEY (" ++ joinSep (", ") pks ++ ")"
  else ""

end V2

/-! ### Concrete schemas used by witnesses and counterexamples -/

/-- A registered `users` table (C1 witness). -/
def c1_users : V2.Table :=
  { name := "users", typeName := "User",
    columns := [("id", { type := .UUID })], primaryKeys := ["id"] }

/-- A registry already holding `users` (C1 witness). -/
def c1_schema : V2.PTSchema := { tables := [c1_users] }

/-- A second, different table that reuses the name `users` (C1 witness). -/
def c1_dup : V2.Table :=
  { name := "users", typeName := "User2",
    columns := [("x", { type := .Integer })], primaryKeys := ["x"] }

/-- A table with two independent problems — no primary key and a dangling
foreign key (C2 witness). -/
def c2_t : V1.Table :=
  { name := "t", typeName := "T",
    columns := [("a", { type := .Integer })], primaryKeys := [],
    foreignKeys := [{ columns := [("a", "b")], table := "zzz" }] }

/-- The registry holding `c2_t` (C2 witness). -/
def c2_s : V1.PTSchema := { tables := [c2_t] }

/-- A table whose foreign key links two `Char(3)` columns (C3 witness). -/
def c3_intl : V1.Table :=
  { name := "intl_airports", typeName := "InternationalAirport",
    columns := [("iata", { type := .Char 3 })], primaryKeys := ["iata"],
    foreignKeys := [{ columns := [("iata", "iata")], table := "airports" }] }

/-- The referenced table, with its own `Char(3)` column (C3 witness). -/
def c3_airports : V1.Table :=
  { name := "airports", typeName := "Airport",
    columns := [("iata", { type := .Char 3 })], primaryKeys := ["iata"] }

/-- The registry holding both C3 witness tables. -/
def c3_s : V1.PTSchema := { tables := [c3_intl, c3_airports] }

/-- A table whose foreign key targets an enum of the same name but with a
different value set (C3 counterexample). -/
def c3x_t1 : V1.Table :=
  { name := "a", typeName := "A",
    columns := [("x", { type := .UserDefined ("level") (["a"]) })],
    primaryKeys := ["x"],
    foreignKeys := [{ columns := [("x", "y")], table := "b" }] }

/-- The referenced table, same enum name `level`, different values
(C3 counterexample). -/
def c3x_t2 : V1.Table :=
  { name := "b", typeName := "B",
    columns := [("y", { type := .UserDefined ("level") (["b"]) })],
    primaryKeys := ["y"] }

/-- The registry holding both C3 counterexample tables. -/
def c3x_s : V1.PTSchema := { tables := [c3x_t1, c3x_t2] }

/-- A table with no primary key (C4). -/
def c4_t : V1.Table :=
  { name := "t", typeName := "T",
    columns := [("a", { type := .Integer })], primaryKeys := [] }

/-- A registry whose single table is invalid — no primary key (C4). -/
def c4_bad : V1.PTSchema := { tables := [c4_t] }

/-- The validation report `c4_bad` produces (C4 witness). -/
def c4_E : V1.SchemaValidationErrors :=
  { errors := [],
    perTableErrors := [("t", ["Table \"t\" must have a primary key"])] }

/-- A registry with three tables added in order A, B, C, one custom type
and one extension (C5 witness). -/
def c5_s : V1.PTSchema :=
  { tables :=
      [{ name := "A", typeName := "TA",
         columns := [("id", { type := .Integer })], primaryKeys := ["id"] },
       { name := "B", typeName := "TB",
         columns := [("id", { type := .Integer })], primaryKeys := ["id"] },
       { name := "C", typeName := "TC",
         columns := [("id", { type := .Integer })], primaryKeys := ["id"] }],
    extensions := ["uuid-ossp"],
    customTypes := [("level", .UserDefined ("level") (["a"]))] }

/-- One enum value shared by two tables (C6 witness). -/
def c6_e : ValueType := Enum ("level") (["hi", "lo"])

/-- First table using `c6_e` (C6 witness). -/
def c6_tA : V1.Table :=
  { name := "A", typeName := "TA",
    columns := [("l", { type := c6_e })], primaryKeys := ["l"] }

/-- Second table using the same enum value (C6 witness). -/
def c6_tB : V1.Table :=
  { name := "B", typeName := "TB",
    columns := [("l", { type := c6_e })], primaryKeys := ["l"] }

/-- A valid table carrying an enum column (C7 witness). -/
def c7_t : V2.Table :=
  { name := "t1", typeName := "T1",
    columns := [("v", { type := .UserDefined ("level") (["a"]) })],
    primaryKeys := ["v"] }

/-- The registry state after registering `c7_t` (C7 witness). -/
def c7_s1 : V2.PTSchema := (V2.addTable V2.emptySchema c7_t).1

/-- First table writing enum name `level` with values `["a"]`
(C7 counterexample). -/
def c7x_t1 : V2.Table :=
  { name := "t1", typeName := "T1",
    columns := [("v", { type := .UserDefined ("level") (["a"]) })],
    primaryKeys := ["v"] }

/-- Second table writing the same enum name `level` with values `["b"]`
(C7 counterexample). -/
def c7x_t2 : V2.Table :=
  { name := "t2", typeName := "T2",
    columns := [("w", { type := .UserDefined ("level") (["b"]) })],
    primaryKeys := ["w"] }

/-- A table whose primary-key list repeats a column name (C8 witness). -/
def c8_t : V2.Table :=
  { name := "t", typeName := "T",
    columns := [("id", { type := .Integer }), ("b", { type := .Text })],
    primaryKeys := ["id", "b", "id"] }

/-- The registry state after registering `c8_t` (C8 witness). -/
def c8_s1 : V2.PTSchema := (V2.addTable V2.emptySchema c8_t).1

/-- The successful `generateSQLSchema` payload on an empty registry
(C10 witness). -/
def c10_sqlOut : String :=
  V1.sqlAutoGenNotice true ++ newlinePad (V1.sqlExtensionsBlock V1.emptySchema) ++
    newlinePad (V1.sqlTypeDefsBlock V1.emptySchema) ++
    V1.sqlTableDefsBlock V1.emptySchema ++ V1.sqlAutoGenNotice false

/-- The successful `generateTypeScript` payload on an empty registry
(C10 witness). -/
def c10_tsOut : String :=
  V1.tsAutoGenNotice true ++
    newlinePad (V1.tsCustomTypeDefsBlock V1.emptySchema) ++
    V1.tsTableDefsBlock V1.emptySchema ++ V1.tsAutoGenNotice false

/-! ### Helper lemmas -/

theorem joinSep_append (sep : String) (a b : List String) (ha : a ≠ [])
    (hb : b ≠ []) :
    joinSep sep (a ++ b) = joinSep sep a ++ sep ++ joinSep sep b := by
  induction a with
  | nil => exact absurd rfl ha
  | cons x xs ih =>
    cases xs with
    | nil =>
      cases b with
      | nil => exact absurd rfl hb
      | cons y ys => simp [joinSep]
    | cons x' xs' =>
      have h : joinSep sep ((x' :: xs') ++ b) =
          joinSep sep (x' :: xs') ++ sep ++ joinSep sep b := ih (by simp)
      calc joinSep sep ((x :: x' :: xs') ++ b)
          = x ++ sep ++ joinSep sep ((x' :: xs') ++ b) := by
            simp [joinSep]
        _ = x ++ sep ++ (joinSep sep (x' :: xs') ++ sep ++ joinSep sep b) := by
            rw [h]
        _ = (x ++ sep ++ joinSep sep (x' :: xs')) ++ sep ++ joinSep sep b := by
            simp [String.append_assoc]
        _ = joinSep sep (x :: x' :: xs') ++ sep ++ joinSep sep b := by
            simp [joinSep]

theorem lookupFirst_cons (k0 : String) (v0 : α) (rest : List (String × α))
    (k' : String) :
    lookupFirst ((k0, v0) :: rest) k' =
      if k0 = k' then some v0 else lookupFirst rest k' := by
  by_cases h : k0 = k'
  · subst h; simp [lookupFirst, List.find?]
  · have hb : (k0 == k') = false := beq_eq_false_iff_ne.mpr h
    simp [lookupFirst, List.find?, hb, h]

theorem jsObjInsert_cons (k0 : String) (v0 : α) (rest : List (String × α))
    (k : String) (v : α) :
    jsObjInsert ((k0, v0) :: rest) k v =
      if k0 = k then (k0, v) :: rest else (k0, v0) :: jsObjInsert rest k v := by
  by_cases h : k0 = k <;> simp [jsObjInsert, h]

theorem lookupFirst_jsObjInsert (m : List (String × α)) (k k' : String)
    (v : α) :
    lookupFirst (jsObjInsert m k v) k' =
      if k' = k then some v else lookupFirst m k' := by
  induction m with
  | nil =>
    rw [show jsObjInsert ([] : List (String × α)) k v = [(k, v)] from rfl,
      lookupFirst_cons]
    by_cases h : k' = k
    · rw [if_pos h.symm, if_pos h]
    · rw [if_neg (fun he => h he.symm), if_neg h]
  | cons p rest ih =>
    obtain ⟨k0, v0⟩ := p
    rw [jsObjInsert_cons]
    by_cases h0 : k0 = k
    · subst h0
      rw [if_pos rfl, lookupFirst_cons, lookupFirst_cons]
      by_cases h1 : k0 = k'
      · rw [if_pos h1, if_pos h1.symm]
      · rw [if_neg h1, if_neg (fun he => h1 he.symm), if_neg h1]
    · rw [if_neg h0, lookupFirst_cons, lookupFirst_cons]
      by_cases h1 : k0 = k'
      · rw [if_pos h1, if_pos h1, if_neg (fun he => h0 (h1.trans he))]
      · rw [if_neg h1, if_neg h1, ih]

theorem keys_jsObjInsert (m : List (String × α)) (k : String) (v : α) :
    (jsObjInsert m k v).map (fun p => p.1) =
      if k ∈ m.map (fun p => p.1) then m.map (fun p => p.1)
      else m.map (fun p => p.1) ++ [k] := by
  induction m with
  | nil => simp [jsObjInsert]
  | cons p rest ih =>
    obtain ⟨k0, v0⟩ := p
    by_cases h0 : k0 = k
    · subst h0
      simp [jsObjInsert]
    · have hne : ¬(k = k0) := fun h => h0 h.symm
      simp only [jsObjInsert, beq_iff_eq, h0, if_false, List.map_cons,
        List.mem_cons, hne, false_or]
      rw [ih]
      by_cases hmem : k ∈ rest.map (fun p => p.1) <;> simp [hmem]

theorem mem_of_mem_jsObjInsert (m : List (String × α)) (k : String) (v : α)
    (p : String × α) (hp : p ∈ jsObjInsert m k v) : p ∈ m ∨ p = (k, v) := by
  induction m with
  | nil => simpa [jsObjInsert] using hp
  | cons q rest ih =>
    obtain ⟨k0, v0⟩ := q
    by_cases h0 : k0 = k
    · subst h0
      simp only [jsObjInsert, beq_self_eq_true, if_true, List.mem_cons] at hp
      rcases hp with h | h
      · right; exact h
      · left; exact List.mem_cons_of_mem _ h
    · simp only [jsObjInsert, beq_iff_eq, h0, if_false, List.mem_cons] at hp
      rcases hp with h | h
      · left; exact h ▸ List.mem_cons_self _ _
      · rcases ih h with h' | h'
        · left; exact List.mem_cons_of_mem _ h'
        · right; exact h'

theorem mem_dedupAux_not_mem_seen (l seen : List String) (x : String)
    (hx : x ∈ dedupAux seen l) : x ∉ seen := by
  induction l generalizing seen with
  | nil => simp [dedupAux] at hx
  | cons y ys ih =>
    by_cases hy : y ∈ seen
    · simp only [dedupAux, if_pos hy] at hx
      exact ih seen hx
    · simp only [dedupAux, if_neg hy, List.mem_cons] at hx
      rcases hx with h | h
      · exact h ▸ hy
      · intro hmem
        exact ih (seen ++ [y]) h (by simp [hmem])

theorem nodup_dedupAux (l seen : List String) : (dedupAux seen l).Nodup := by
  induction l generalizing seen with
  | nil => simp [dedupAux]
  | cons y ys ih =>
    by_cases hy : y ∈ seen
    · simpa [dedupAux, hy] using ih seen
    · simp only [dedupAux, if_neg hy, List.nodup_cons]
      refine ⟨fun hmem => ?_, ih (seen ++ [y])⟩
      exact mem_dedupAux_not_mem_seen ys (seen ++ [y]) y hmem (by simp)

theorem nodup_dedupKeepFirst (l : List String) : (dedupKeepFirst l).Nodup :=
  nodup_dedupAux l []

theorem count_dedupAux_of_mem_seen (l seen : List String) (n : String)
    (hn : n ∈ seen) : (dedupAux seen l).count n = 0 := by
  induction l generalizing seen with
  | nil => simp [dedupAux]
  | cons y ys ih =>
    by_cases hy : y ∈ seen
    · simpa [dedupAux, hy] using ih seen hn
    · have hne : n ≠ y := fun h => hy (h ▸ hn)
      simp only [dedupAux, if_neg hy]
      rw [List.count_cons_of_ne hne]
      exact ih (seen ++ [y]) (by simp [hn])

theorem count_dedupAux_of_not_mem_seen (l seen : List String) (n : String)
    (hn : n ∉ seen) : (dedupAux seen l).count n = if n ∈ l then 1 else 0 := by
  induction l generalizing seen with
  | nil => simp [dedupAux]
  | cons y ys ih =>
    by_cases hy : y ∈ seen
    · have hstep : dedupAux seen (y :: ys) = dedupAux seen ys := by
        simp [dedupAux, hy]
      have hne : ¬(n = y) := fun h => hn (h ▸ hy)
      rw [hstep, ih seen hn]
      simp [List.mem_cons, hne]
    · have hstep : dedupAux seen (y :: ys) = y :: dedupAux (seen ++ [y]) ys := by
        simp [dedupAux, hy]
      rw [hstep]
      by_cases hxy : n = y
      · subst hxy
        rw [List.count_cons_self,
          count_dedupAux_of_mem_seen ys (seen ++ [n]) n (by simp)]
        simp
      · rw [List.count_cons_of_ne hxy,
          ih (seen ++ [y]) (by simp [List.mem_append, hn, hxy])]
        simp [List.mem_cons, hxy]

theorem colLoop_acc (tname : String) (names : List String)
    (seen errs : List String) :
    V1.colLoop tname seen errs names = errs ++ V1.colLoop tname seen [] names := by
  induction names generalizing seen errs with
  | nil => simp [V1.colLoop]
  | cons n ns ih =>
    by_cases h : n ∈ seen
    · simp only [V1.colLoop, if_pos h]
      rw [ih (seen ++ [n]) (errs ++ _), ih (seen ++ [n]) ([] ++ _)]
      simp [List.append_assoc]
    · simp only [V1.colLoop, if_neg h]
      rw [ih (seen ++ [n]) errs]

theorem pkPass_acc (t : V1.Table) (errs : List String) :
    V1.pkPass t errs = errs ++ V1.pkPass t [] := by
  have hfold : ∀ (l : List String) (e : List String),
      l.foldl (fun acc k =>
        if V1.columnExists t k then acc
        else acc ++ ["Table \"" ++ t.name ++ "\" is missing column \"" ++ k ++
          "\" for primary key constraint"]) e =
      e ++ l.foldl (fun acc k =>
        if V1.columnExists t k then acc
        else acc ++ ["Table \"" ++ t.name ++ "\" is missing column \"" ++ k ++
          "\" for primary key constraint"]) [] := by
    intro l
    induction l with
    | nil => intro e; simp
    | cons k ks ih =>
      intro e
      simp only [List.foldl_cons]
      by_cases h : V1.columnExists t k
      · simp only [if_pos h]
        exact ih e
      · simp only [if_neg h]
        rw [ih (e ++ _), ih ([] ++ _)]
        simp [List.append_assoc]
  unfold V1.pkPass
  by_cases h : t.primaryKeys.length == 0
  · simp only [if_pos h]
    rw [hfold _ (errs ++ _), hfold _ ([] ++ _)]
    simp [List.append_assoc]
  · simp only [if_neg h]
    exact hfold _ errs

theorem fkLoop_acc (s : V1.PTSchema) (t : V1.Table)
    (pairs : List (String × String × String)) (seen errs : List String) :
    V1.fkLoop s t seen errs pairs = errs ++ V1.fkLoop s t seen [] pairs := by
  induction pairs generalizing seen errs with
  | nil => simp [V1.fkLoop]
  | cons pr rest ih =>
    obtain ⟨tbl, lcl, frn⟩ := pr
    simp only [V1.fkLoop]
    cases hl : lookupFirst t.columns lcl with
    | none =>
      rw [ih seen (errs ++ _), ih seen ([] ++ _)]
      simp [List.append_assoc]
    | some localCol =>
      by_cases hseen : lcl ∈ seen
      · simp only [if_pos hseen]
        rw [ih seen (errs ++ _), ih seen ([] ++ _)]
        simp [List.append_assoc]
      · simp only [if_neg hseen]
        cases hft : V1.findForeignTable s t tbl frn with
        | none =>
          rw [ih (seen ++ [lcl]) (errs ++ _), ih (seen ++ [lcl]) ([] ++ _)]
          simp [List.append_assoc]
        | some ft =>
          by_cases hok : ((lookupFirst ft.columns frn).map (fun c =>
              vtDeepEq c.type localCol.type)).getD false
          · simp only [if_pos hok]
            exact ih (seen ++ [lcl]) errs
          · simp only [if_neg hok]
            rw [ih (seen ++ [lcl]) (errs ++ _), ih (seen ++ [lcl]) ([] ++ _)]
            simp [List.append_assoc]

theorem validateTable_decomp (s : V1.PTSchema) (t : V1.Table) :
    V1.validateTable s t = V1.colErrs t ++ V1.pkErrs t ++ V1.fkErrs s t := by
  unfold V1.validateTable V1.colErrs V1.pkErrs V1.fkErrs
  rw [fkLoop_acc, pkPass_acc, colLoop_acc]

theorem valLoop_lookup_of_seen (s : V1.PTSchema) (rest : List V1.Table)
    (seen errs : List String) (ptes : List (String × List String))
    (n : String) (hn : n ∈ seen) :
    lookupFirst (V1.valLoop s seen errs ptes rest).perTableErrors n =
      lookupFirst ptes n := by
  induction rest generalizing seen errs ptes with
  | nil => rfl
  | cons u rest' ih =>
    by_cases hu : u.name ∈ seen
    · simp only [V1.valLoop, if_pos hu]
      exact ih seen _ ptes hn
    · have hun : ¬(n = u.name) := fun h => hu (h ▸ hn)
      simp only [V1.valLoop, if_neg hu]
      rw [ih (seen ++ [u.name]) _ _ (by simp [hn])]
      by_cases hv : (V1.validateTable s u).length > 0
      · simp only [if_pos hv]
        rw [lookupFirst_jsObjInsert, if_neg hun]
      · simp only [if_neg hv]

theorem valLoop_find_lookup (s : V1.PTSchema) (rest : List V1.Table)
    (seen errs : List String) (ptes : List (String × List String))
    (t : V1.Table)
    (hfind : rest.find? (fun x => x.name == t.name) = some t)
    (hseen : t.name ∉ seen) (hne : V1.validateTable s t ≠ []) :
    lookupFirst (V1.valLoop s seen errs ptes rest).perTableErrors t.name =
      some (V1.validateTable s t) := by
  induction rest generalizing seen errs ptes with
  | nil => simp [List.find?] at hfind
  | cons u rest' ih =>
    by_cases hu : u.name = t.name
    · have hut : u = t := by
        have hstep := List.find?_cons_of_pos
          (p := fun x : V1.Table => x.name == t.name) rest'
          (a := u) (by simp [hu])
        rw [hstep] at hfind
        exact Option.some_inj.mp hfind
      subst hut
      simp only [V1.valLoop, if_neg hseen]
      have hlen : (V1.validateTable s u).length > 0 :=
        List.length_pos.mpr hne
      simp only [if_pos hlen]
      rw [valLoop_lookup_of_seen s rest' _ _ _ u.name (by simp),
        lookupFirst_jsObjInsert, if_pos rfl]
    · have hfind' : rest'.find? (fun x => x.name == t.name) = some t := by
        have hstep := List.find?_cons_of_neg
          (p := fun x : V1.Table => x.name == t.name) rest'
          (a := u) (by simp [hu])
        rwa [hstep] at hfind
      have hnut : ¬(t.name = u.name) := fun h => hu h.symm
      by_cases huseen : u.name ∈ seen
      · simp only [V1.valLoop, if_pos huseen]
        exact ih seen _ ptes hfind' hseen
      · simp only [V1.valLoop, if_neg huseen]
        exact ih (seen ++ [u.name]) errs _ hfind'
          (by simp [List.mem_append, hseen, hnut])

theorem dedupAux_append (a b seen : List String) :
    dedupAux seen (a ++ b) =
      dedupAux seen a ++ dedupAux (seen ++ dedupAux seen a) b := by
  induction a generalizing seen with
  | nil => simp [dedupAux]
  | cons x xs ih =>
    by_cases hx : x ∈ seen
    · simp [dedupAux, hx, ih]
    · simp only [List.cons_append, dedupAux, if_neg hx, List.append_eq]
      rw [ih (seen ++ [x])]
      simp [List.append_assoc]

theorem registerEnumColumns_cons (m : List (String × ValueType))
    (p : String × Column) (rest : List (String × Column)) :
    registerEnumColumns m (p :: rest) =
      if p.2.type.key == "UserDefinedType" then
        registerEnumColumns (jsObjInsert m p.2.type.sqlName p.2.type) rest
      else registerEnumColumns m rest := by
  by_cases h : p.2.type.key == "UserDefinedType" <;>
    simp [registerEnumColumns, List.filter_cons, h]

theorem enumColNames_cons (p : String × Column)
    (rest : List (String × Column)) :
    enumColNames (p :: rest) =
      if p.2.type.key == "UserDefinedType" then
        p.2.type.sqlName :: enumColNames rest
      else enumColNames rest := by
  by_cases h : p.2.type.key = "UserDefinedType" <;>
    simp [enumColNames, List.filterMap_cons, h]

theorem keys_registerEnumColumns (cols : List (String × Column))
    (m : List (String × ValueType)) :
    (registerEnumColumns m cols).map (fun p => p.1) =
      keyFoldL (m.map (fun p => p.1)) (enumColNames cols) := by
  induction cols generalizing m with
  | nil => simp [registerEnumColumns, enumColNames, keyFoldL]
  | cons p rest ih =>
    rw [registerEnumColumns_cons, enumColNames_cons]
    by_cases h : p.2.type.key == "UserDefinedType"
    · rw [if_pos h, if_pos h, ih]
      have hkeys := keys_jsObjInsert m p.2.type.sqlName p.2.type
      rw [show keyFoldL (m.map (fun p => p.1))
            (p.2.type.sqlName :: enumColNames rest) =
          keyFoldL (if p.2.type.sqlName ∈ m.map (fun p => p.1) then
              m.map (fun p => p.1)
            else m.map (fun p => p.1) ++ [p.2.type.sqlName])
            (enumColNames rest) from rfl, hkeys]
    · rw [if_neg h, if_neg h, ih]

theorem keyFoldL_eq_append_dedupAux (ns ks : List String) :
    keyFoldL ks ns = ks ++ dedupAux ks ns := by
  induction ns generalizing ks with
  | nil => simp [keyFoldL, dedupAux]
  | cons n ns' ih =>
    by_cases h : n ∈ ks
    · rw [show keyFoldL ks (n :: ns') = keyFoldL ks ns' from by
        simp [keyFoldL, List.foldl_cons, h], ih ks]
      simp [dedupAux, h]
    · rw [show keyFoldL ks (n :: ns') = keyFoldL (ks ++ [n]) ns' from by
        simp [keyFoldL, List.foldl_cons, h], ih (ks ++ [n])]
      simp [dedupAux, h, List.append_assoc]

theorem keyFoldL_append (ks a b : List String) :
    keyFoldL ks (a ++ b) = keyFoldL (keyFoldL ks a) b := by
  simp [keyFoldL, List.foldl_append]

theorem allEnumNames_cons (t : V1.Table) (ts : List V1.Table) :
    V1.allEnumNames (t :: ts) = V1.tableEnumNames t ++ V1.allEnumNames ts := by
  simp [V1.allEnumNames]

theorem keys_addTables (ts : List V1.Table) (s : V1.PTSchema) :
    ((V1.addTables s ts).customTypes.map (fun p => p.1)) =
      keyFoldL (s.customTypes.map (fun p => p.1)) (V1.allEnumNames ts) := by
  induction ts generalizing s with
  | nil => simp [V1.addTables, V1.allEnumNames, keyFoldL]
  | cons t rest ih =>
    rw [show V1.addTables s (t :: rest) =
        V1.addTables (V1.addTable s t) rest from rfl, ih, allEnumNames_cons,
      keyFoldL_append]
    rw [show (V1.addTable s t).customTypes =
        registerEnumColumns s.customTypes t.columns from rfl,
      keys_registerEnumColumns]
    simp [V1.tableEnumNames]

theorem registerEnumColumns_value_inv (cols : List (String × Column))
    (m : List (String × ValueType))
    (h : ∀ p ∈ m, p.2.sqlName = p.1) :
    ∀ p ∈ registerEnumColumns m cols, p.2.sqlName = p.1 := by
  induction cols generalizing m with
  | nil => exact h
  | cons q rest ih =>
    rw [registerEnumColumns_cons]
    by_cases hq : q.2.type.key == "UserDefinedType"
    · rw [if_pos hq]
      refine ih _ (fun p hp => ?_)
      rcases mem_of_mem_jsObjInsert _ _ _ _ hp with hmem | heq
      · exact h p hmem
      · subst heq; rfl
    · rw [if_neg hq]
      exact ih m h

theorem addTables_value_inv (ts : List V1.Table) (s : V1.PTSchema)
    (h : ∀ p ∈ s.customTypes, p.2.sqlName = p.1) :
    ∀ p ∈ (V1.addTables s ts).customTypes, p.2.sqlName = p.1 := by
  induction ts generalizing s with
  | nil => exact h
  | cons t rest ih =>
    exact ih (V1.addTable s t) (registerEnumColumns_value_inv t.columns _ h)

theorem tsPickLoop_names (cols : List (String × Column)) (seen : List String) :
    ((V1.tsPickLoop seen cols).1.map ValueType.sqlName) =
        dedupAux seen (enumColNames cols) ∧
      (V1.tsPickLoop seen cols).2 = seen ++ dedupAux seen (enumColNames cols) := by
  induction cols generalizing seen with
  | nil => simp [V1.tsPickLoop, enumColNames, dedupAux]
  | cons q rest ih =>
    obtain ⟨qn, c⟩ := q
    rw [enumColNames_cons]
    by_cases hk : c.type.key == "UserDefinedType"
    · rw [if_pos hk]
      by_cases hs : c.type.sqlName ∈ seen
      · have hcond : (c.type.key == "UserDefinedType" &&
            !(seen.contains c.type.sqlName)) = false := by
          simp [hk, hs]
        have hstep : V1.tsPickLoop seen ((qn, c) :: rest) =
            V1.tsPickLoop seen rest := by
          simp only [V1.tsPickLoop]
          rw [if_neg (ne_true_of_eq_false hcond)]
        rw [hstep, show dedupAux seen (c.type.sqlName :: enumColNames rest) =
            dedupAux seen (enumColNames rest) from by simp [dedupAux, hs]]
        exact ih seen
      · have hcond : (c.type.key == "UserDefinedType" &&
            !(seen.contains c.type.sqlName)) = true := by
          simp [hk, hs]
        have hstep : V1.tsPickLoop seen ((qn, c) :: rest) =
            (c.type :: (V1.tsPickLoop (seen ++ [c.type.sqlName]) rest).1,
             (V1.tsPickLoop (seen ++ [c.type.sqlName]) rest).2) := by
          simp only [V1.tsPickLoop]
          rw [if_pos hcond]
        have hded : dedupAux seen (c.type.sqlName :: enumColNames rest) =
            c.type.sqlName ::
              dedupAux (seen ++ [c.type.sqlName]) (enumColNames rest) := by
          simp [dedupAux, hs]
        rw [hstep, hded]
        obtain ⟨ih1, ih2⟩ := ih (seen ++ [c.type.sqlName])
        constructor
        · simp only [List.map_cons, ih1]
        · rw [ih2]
          simp [List.append_assoc]
    · have hcond : (c.type.key == "UserDefinedType" &&
          !(seen.contains c.type.sqlName)) = false := by
        simp [hk]
      have hstep : V1.tsPickLoop seen ((qn, c) :: rest) =
          V1.tsPickLoop seen rest := by
        simp only [V1.tsPickLoop]
        rw [if_neg (ne_true_of_eq_false hcond)]
      rw [if_neg hk, hstep]
      exact ih seen

theorem tsScanTables_names (ts : List V1.Table) (seen : List String) :
    ((((V1.tsScanTables seen ts).1).map
        (fun g => g.map ValueType.sqlName)).foldr (· ++ ·) [] =
      dedupAux seen (V1.allEnumNames ts)) ∧
      (V1.tsScanTables seen ts).2 = seen ++ dedupAux seen (V1.allEnumNames ts) := by
  induction ts generalizing seen with
  | nil => simp [V1.tsScanTables, V1.allEnumNames, dedupAux]
  | cons t rest ih =>
    have hstep : V1.tsScanTables seen (t :: rest) =
        ((V1.tsPickLoop seen t.columns).1 ::
          (V1.tsScanTables (V1.tsPickLoop seen t.columns).2 rest).1,
         (V1.tsScanTables (V1.tsPickLoop seen t.columns).2 rest).2) := by
      simp [V1.tsScanTables]
    obtain ⟨hp1, hp2⟩ := tsPickLoop_names t.columns seen
    obtain ⟨ih1, ih2⟩ := ih (V1.tsPickLoop seen t.columns).2
    rw [hstep, allEnumNames_cons, dedupAux_append]
    constructor
    · simp only [List.map_cons, List.foldr_cons, hp1]
      rw [ih1, hp2]
      rfl
    · rw [ih2, hp2]
      simp [V1.tableEnumNames, List.append_assoc]

theorem vtDeepEq_refl (ty : ValueType) : vtDeepEq ty ty = true := by
  cases ty <;> simp [vtDeepEq, setEqB, subsetB, List.all_eq_true]

theorem lookup_registerEnumColumns (cols : List (String × Column))
    (m : List (String × ValueType)) (n : String) :
    lookupFirst (registerEnumColumns m cols) n =
      match lastTypeWritten cols n with
      | some ty => some ty
      | none => lookupFirst m n := by
  induction cols generalizing m with
  | nil => simp [registerEnumColumns, lastTypeWritten]
  | cons p rest ih =>
    rw [registerEnumColumns_cons]
    rw [show lastTypeWritten (p :: rest) n =
        match lastTypeWritten rest n with
        | some ty => some ty
        | none =>
          if p.2.type.key == "UserDefinedType" && p.2.type.sqlName == n then
            some p.2.type
          else none from rfl]
    by_cases hp : p.2.type.key == "UserDefinedType"
    · rw [if_pos hp, ih]
      cases hres : lastTypeWritten rest n with
      | some ty => rfl
      | none =>
        rw [lookupFirst_jsObjInsert]
        by_cases hn : p.2.type.sqlName = n
        · rw [if_pos hn.symm]
          simp [hp, hn]
        · rw [if_neg (fun h => hn h.symm)]
          have : (p.2.type.sqlName == n) = false := beq_eq_false_iff_ne.mpr hn
          simp [this]
    · rw [if_neg hp, ih]
      have : (p.2.type.key == "UserDefinedType" &&
          p.2.type.sqlName == n) = false := by
        simp only [Bool.and_eq_false_iff]
        left
        exact Bool.not_eq_true _ ▸ hp
      cases hres : lastTypeWritten rest n <;> simp [this]

theorem addTable_ok_split (s : V2.PTSchema) (t : V2.Table) (s' : V2.PTSchema)
    (h : V2.addTable s t = (s', none)) :
    s.tables.any (fun tt => tt.name == t.name) = false ∧
    V2.validate s { t with primaryKeys := dedupKeepFirst t.primaryKeys } = none ∧
    s' = { s with
      customTypes := registerEnumColumns s.customTypes t.columns,
      tables := s.tables ++
        [{ t with primaryKeys := dedupKeepFirst t.primaryKeys }] } := by
  unfold V2.addTable at h
  by_cases hdup : s.tables.any (fun tt => tt.name == t.name) = true
  · rw [if_pos hdup] at h
    exact absurd (congrArg Prod.snd h) (by simp)
  · rw [if_neg hdup] at h
    have h2 : (match V2.validate s
        { t with primaryKeys := dedupKeepFirst t.primaryKeys } with
      | some e => (s, some e)
      | none =>
        ({ s with
            customTypes := registerEnumColumns s.customTypes t.columns,
            tables := s.tables ++
              [{ t with primaryKeys := dedupKeepFirst t.primaryKeys }] },
          none)) = (s', (none : Option String)) := h
    cases hv : V2.validate s
        { t with primaryKeys := dedupKeepFirst t.primaryKeys } with
    | some e =>
      rw [hv] at h2
      exact absurd (congrArg Prod.snd h2) (by simp)
    | none =>
      rw [hv] at h2
      exact ⟨Bool.of_not_eq_true hdup, rfl, (congrArg Prod.fst h2).symm⟩

/-! ### Claims -/

/-- C1: for every registry state and every table whose name equals the name
of an already-registered table, `addTable` fails with the duplicate-table
error and leaves the registry exactly as it was before the call (the
duplicate check runs before any mutation). -/
theorem addTable_duplicate_name_rejected (s : V2.PTSchema) (t : V2.Table)
    (h : ∃ t₀ ∈ s.tables, t₀.name = t.name) :
    V2.addTable s t =
      (s, some ("Table with name \"" ++ t.name ++ "\" already exists")) := by
  have hany : s.tables.any (fun tt => tt.name == t.name) = true := by
    rcases h with ⟨t₀, ht₀, hname⟩
    exact List.any_eq_true.mpr ⟨t₀, ht₀, by simp [hname]⟩
  unfold V2.addTable
  rw [if_pos hany]

/-- C1 witness: a registry already holding `users` rejects a second table
named `users` and is returned unchanged. -/
theorem addTable_duplicate_name_rejected_witness :
    (∃ t₀ ∈ c1_schema.tables, t₀.name = c1_dup.name) ∧
    V2.addTable c1_schema c1_dup =
      (c1_schema,
       some ("Table with name \"" ++ c1_dup.name ++ "\" already exists")) :=
  ⟨by decide, addTable_duplicate_name_rejected c1_schema c1_dup (by decide)⟩

/-- C2: whole-schema validation collects every problem: for each table that
is the first of its name, the per-table error list is the concatenation of
the duplicate-column, primary-key and foreign-key passes (each pass runs
regardless of whether earlier passes failed), and whenever that list is
nonempty the aggregated `SchemaValidationErrors` report files the complete
list under the table's name rather than stopping at the first problem. -/
theorem validate_aggregates_all_problems (s : V1.PTSchema) (t : V1.Table)
    (hfind : s.tables.find? (fun x => x.name == t.name) = some t)
    (hne : V1.validateTable s t ≠ []) :
    V1.validateTable s t = V1.colErrs t ++ V1.pkErrs t ++ V1.fkErrs s t ∧
    ∃ E, V1.validate s = some E ∧
      lookupFirst E.perTableErrors t.name = some (V1.validateTable s t) := by
  refine ⟨validateTable_decomp s t, ?_⟩
  have hlook := valLoop_find_lookup s s.tables [] [] [] t hfind
    (by simp) hne
  refine ⟨V1.valLoop s [] [] [] s.tables, ?_, hlook⟩
  have hptne : (V1.valLoop s [] [] [] s.tables).perTableErrors ≠ [] := by
    intro hnil
    rw [hnil] at hlook
    simp [lookupFirst] at hlook
  unfold V1.validate
  have hlen : (V1.valLoop s [] [] [] s.tables).perTableErrors.length > 0 :=
    List.length_pos.mpr hptne
  rw [if_pos (by simp [hlen])]

/-- C2 witness: a table missing its primary key and carrying a dangling
foreign key has both problems reported together under its name. -/
theorem validate_aggregates_all_problems_witness :
    (c2_s.tables.find? (fun x => x.name == c2_t.name) = some c2_t) ∧
    (V1.validateTable c2_s c2_t ≠ []) ∧
    (V1.validateTable c2_s c2_t =
        V1.colErrs c2_t ++ V1.pkErrs c2_t ++ V1.fkErrs c2_s c2_t ∧
      ∃ E, V1.validate c2_s = some E ∧
        lookupFirst E.perTableErrors c2_t.name =
          some (V1.validateTable c2_s c2_t)) :=
  ⟨by decide, by decide,
    validate_aggregates_all_problems c2_s c2_t (by decide) (by decide)⟩

/-- C3 counterexample: the claim holds that two enumerations with the same
name are accepted by the foreign-key type check.  The code compares the
whole type objects with `deepStrictEqual`, value sets included: an enum
named `level` with values `["a"]` against one named `level` with values
`["b"]` produces a type-mismatch error, not an accepted key. -/
theorem fk_same_enum_name_not_accepted_cex :
    V1.validateTable c3x_s c3x_t1 =
      [V1.mismatchMsg ("a") ("x") ("y") ("b")] := by decide

/-- C3 (amended): the foreign-key type check is structural, not by
reference: a resolved foreign key is accepted exactly when the two
`ValueType`s are `deepStrictEqual` — same variant and parameters, and for
enumerations the same name and the same value set (compared as unordered
sets) — and any value type is deep-equal to itself, so two
separately-constructed `Char(3)` values are accepted.  A structurally
different pair yields the mismatch error identifying that foreign key. -/
theorem fk_type_check_structural (s : V1.PTSchema) (t : V1.Table)
    (tbl lcl frn : String) (fk : V1.FKey) (lc fc : Column) (ft : V1.Table)
    (hfk : t.foreignKeys = [fk]) (hcols : fk.columns = [(lcl, frn)])
    (htbl : fk.table = tbl)
    (hl : lookupFirst t.columns lcl = some lc)
    (hft : V1.findForeignTable s t tbl frn = some ft)
    (hfc : lookupFirst ft.columns frn = some fc) :
    (V1.fkErrs s t =
      if vtDeepEq fc.type lc.type then []
      else [V1.mismatchMsg t.name lcl frn ft.name]) ∧
    ∀ ty : ValueType, vtDeepEq ty ty = true := by
  refine ⟨?_, vtDeepEq_refl⟩
  unfold V1.fkErrs V1.fkPairs
  rw [hfk]
  simp only [List.map_cons, List.map_nil, List.foldr_cons, List.foldr_nil,
    List.append_nil, hcols]
  rw [htbl]
  simp only [V1.fkLoop, hl, hft, hfc, List.not_mem_nil, if_false,
    List.nil_append]
  by_cases hde : vtDeepEq fc.type lc.type
  · simp [V1.fkLoop, hde]
  · have hfalse : vtDeepEq fc.type lc.type = false :=
      Bool.of_not_eq_true hde
    simp [V1.fkLoop, hfalse]

/-- C3 witness: a foreign key between two `Char(3)` columns is accepted —
the foreign-key pass produces no error. -/
theorem fk_type_check_structural_witness :
    V1.fkErrs c3_s c3_intl =
      if vtDeepEq (ValueType.Char 3) (ValueType.Char 3) then []
      else [V1.mismatchMsg c3_intl.name ("iata") ("iata") c3_airports.name] :=
  (fk_type_check_structural c3_s c3_intl ("airports") ("iata") ("iata")
    { columns := [("iata", "iata")], table := "airports" }
    { type := .Char 3 } { type := .Char 3 } c3_airports
    (by decide) (by decide) (by decide) (by decide) (by decide) (by decide)).1

/-- C4 counterexample: the claim holds that all three generators re-run
validation and never render over an invalid schema.  `generateSQLSchema`
does fail on a registry whose table has no primary key, but
`generateDropSQL` runs no validation at all and happily renders its drop
script over the same invalid registry. -/
theorem generateDropSQL_skips_validation_cex :
    V1.validate c4_bad = some c4_E ∧
    V1.generateDropSQL c4_bad = "DROP TABLE IF EXISTS t;\n\n" := by
  constructor
  · decide
  · decide

/-- C4 (amended): `generateSQLSchema()` and `generateTypeScript()` re-run
whole-schema validation before rendering and, whenever any registered
table is invalid, both return the identical `SchemaValidationErrors` value
instead of rendered output; `generateDropSQL()` performs no validation and
renders its drop script even over an invalid schema. -/
theorem generators_return_validation_errors (s : V1.PTSchema)
    (E : V1.SchemaValidationErrors) (h : V1.validate s = some E) :
    V1.generateSQLSchema s = .error E ∧
    V1.generateTypeScript s = .error E := by
  unfold V1.generateSQLSchema V1.generateTypeScript
  rw [h]
  exact ⟨rfl, rfl⟩

/-- C4 witness: the invalid registry makes both rendering generators
return the aggregated validation report. -/
theorem generators_return_validation_errors_witness :
    V1.validate c4_bad = some c4_E ∧
    (V1.generateSQLSchema c4_bad = .error c4_E ∧
      V1.generateTypeScript c4_bad = .error c4_E) :=
  ⟨by decide, generators_return_validation_errors c4_bad c4_E (by decide)⟩

/-- C5: `generateDropSQL()` is the newline-join of one `DROP TABLE IF
EXISTS` statement per table in reverse insertion order, followed by one
`DROP TYPE IF EXISTS` per custom type, followed by one `DROP EXTENSION IF
EXISTS` per extension (when each block is nonempty; an empty block leaves
an extra blank line but contributes no statement). -/
theorem generateDropSQL_order (s : V1.PTSchema) (h1 : s.tables ≠ [])
    (h2 : s.customTypes ≠ []) (h3 : s.extensions ≠ []) :
    V1.generateDropSQL s =
      joinSep ("\n") (V1.dropTableStmts s ++ V1.dropTypeStmts s ++
        V1.dropExtensionStmts s) := by
  have ha : V1.dropTableStmts s ≠ [] := by
    simpa [V1.dropTableStmts] using h1
  have hb : V1.dropTypeStmts s ≠ [] := by
    simpa [V1.dropTypeStmts] using h2
  have hc : V1.dropExtensionStmts s ≠ [] := by
    simpa [V1.dropExtensionStmts] using h3
  rw [joinSep_append ("\n") _ _ (by simp [ha]) hc,
    joinSep_append ("\n") _ _ ha hb]
  rfl

/-- C5 witness: tables registered in order A, B, C are dropped as C, B, A,
then the type, then the extension. -/
theorem generateDropSQL_order_witness :
    c5_s.tables ≠ [] ∧ c5_s.customTypes ≠ [] ∧ c5_s.extensions ≠ [] ∧
    V1.dropTableStmts c5_s =
      ["DROP TABLE IF EXISTS C;", "DROP TABLE IF EXISTS B;",
       "DROP TABLE IF EXISTS A;"] ∧
    V1.generateDropSQL c5_s =
      joinSep ("\n") (V1.dropTableStmts c5_s ++ V1.dropTypeStmts c5_s ++
        V1.dropExtensionStmts c5_s) :=
  ⟨by decide, by decide, by decide, by decide,
    generateDropSQL_order c5_s (by decide) (by decide) (by decide)⟩

/-- C6: after registering any table list on a fresh registry, an enum name
used by any column appears exactly once among the custom-type map's keys
(so `generateSQLSchema` emits exactly one `CREATE TYPE` for it — the SQL
type block maps one statement per map entry, and every stored value's
`sqlName` equals its key), and exactly once among the enum declarations
`generateTypeScript` picks while scanning tables in insertion order; two
distinct enum names each keep their own entry, since the count is one for
every used name. -/
theorem enum_declared_exactly_once (ts : List V1.Table) (n : String)
    (h : n ∈ V1.allEnumNames ts) :
    ((V1.addTables V1.emptySchema ts).customTypes.map
      (fun p => p.1)).count n = 1 ∧
    (V1.tsPickedNames ts).count n = 1 ∧
    ∀ p ∈ (V1.addTables V1.emptySchema ts).customTypes, p.2.sqlName = p.1 := by
  refine ⟨?_, ?_, ?_⟩
  · rw [keys_addTables]
    rw [show (V1.emptySchema.customTypes.map (fun p => p.1)) =
        ([] : List String) from rfl]
    rw [keyFoldL_eq_append_dedupAux, List.nil_append]
    rw [count_dedupAux_of_not_mem_seen _ _ _ (by simp), if_pos h]
  · unfold V1.tsPickedNames
    rw [(tsScanTables_names ts []).1,
      count_dedupAux_of_not_mem_seen _ _ _ (by simp), if_pos h]
  · exact addTables_value_inv ts V1.emptySchema (by simp [V1.emptySchema])

/-- C6 witness: the same enum value on two different tables' columns is
declared exactly once on both the SQL and the TypeScript side. -/
theorem enum_declared_exactly_once_witness :
    ("level" ∈ V1.allEnumNames [c6_tA, c6_tB]) ∧
    ((V1.addTables V1.emptySchema [c6_tA, c6_tB]).customTypes.map
      (fun p => p.1)).count ("level") = 1 ∧
    (V1.tsPickedNames [c6_tA, c6_tB]).count ("level") = 1 :=
  ⟨by decide,
    (enum_declared_exactly_once [c6_tA, c6_tB] ("level") (by decide)).1,
    (enum_declared_exactly_once [c6_tA, c6_tB] ("level") (by decide)).2.1⟩

/-- C7 counterexample: the claim holds that the custom-type map keeps the
instance contributed by the first table that used a type name.  Registering
two valid tables whose enums share the name `level` but differ in values
leaves the second table's instance in the map: the write
`customTypes[sqlName] = type` overwrites, so the last writer wins. -/
theorem customTypes_last_writer_wins_cex :
    (V2.addTable V2.emptySchema c7x_t1).2 = none ∧
    (V2.addTable (V2.addTable V2.emptySchema c7x_t1).1 c7x_t2).2 = none ∧
    lookupFirst
      (V2.addTable (V2.addTable V2.emptySchema c7x_t1).1 c7x_t2).1.customTypes
      ("level") = some (.UserDefined ("level") (["b"])) ∧
    (ValueType.UserDefined ("level") (["b"])) ≠
      .UserDefined ("level") (["a"]) := by
  refine ⟨by decide, by decide, by decide, by decide⟩

/-- C7 (amended): a successful `addTable` registers every enum-typed
column under its `sqlName` with last-writer-wins semantics for the value:
afterwards the map holds, for each name, the type of the table's last
enum column carrying that name, and falls back to the previous registry
value when the table has none (a replaced key keeps its original insertion
position). -/
theorem customTypes_last_writer_wins (s : V2.PTSchema) (t : V2.Table)
    (s' : V2.PTSchema) (h : V2.addTable s t = (s', none)) (n : String) :
    lookupFirst s'.customTypes n =
      match lastTypeWritten t.columns n with
      | some ty => some ty
      | none => lookupFirst s.customTypes n := by
  obtain ⟨-, -, hs'⟩ := addTable_ok_split s t s' h
  rw [hs']
  exact lookup_registerEnumColumns t.columns s.customTypes n

/-- C7 witness: registering a table with one enum column stores that
column's type under the enum's name. -/
theorem customTypes_last_writer_wins_witness :
    (V2.addTable V2.emptySchema c7_t = (c7_s1, none)) ∧
    lookupFirst c7_s1.customTypes ("level") =
      match lastTypeWritten c7_t.columns ("level") with
      | some ty => some ty
      | none => lookupFirst V2.emptySchema.customTypes ("level") :=
  ⟨by decide,
    customTypes_last_writer_wins V2.emptySchema c7_t c7_s1 (by decide)
      ("level")⟩

/-- C8: a successful `addTable` stores the table with its primary-key list
deduplicated (`[...new Set(...)]`, first occurrence kept), so the stored
list has no repeated name and the `PRIMARY KEY (...)` clause — rendered
from exactly that list — never lists a column twice. -/
theorem addTable_dedups_primary_keys (s : V2.PTSchema) (t : V2.Table)
    (s' : V2.PTSchema) (h : V2.addTable s t = (s', none)) :
    s'.tables = s.tables ++
      [{ t with primaryKeys := dedupKeepFirst t.primaryKeys }] ∧
    (dedupKeepFirst t.primaryKeys).Nodup ∧
    ∀ c, (dedupKeepFirst t.primaryKeys).count c ≤ 1 := by
  obtain ⟨-, -, hs'⟩ := addTable_ok_split s t s' h
  exact ⟨by rw [hs'], nodup_dedupKeepFirst _,
    fun c => List.nodup_iff_count_le_one.mp (nodup_dedupKeepFirst _) c⟩

/-- C8 witness: a table declared with primary keys `["id", "b", "id"]` is
stored with `["id", "b"]`. -/
theorem addTable_dedups_primary_keys_witness :
    (V2.addTable V2.emptySchema c8_t = (c8_s1, none)) ∧
    (dedupKeepFirst c8_t.primaryKeys = ["id", "b"]) ∧
    c8_s1.tables = V2.emptySchema.tables ++
      [{ c8_t with primaryKeys := dedupKeepFirst c8_t.primaryKeys }] ∧
    (dedupKeepFirst c8_t.primaryKeys).Nodup :=
  ⟨by decide, by decide,
    (addTable_dedups_primary_keys V2.emptySchema c8_t c8_s1 (by decide)).1,
    (addTable_dedups_primary_keys V2.emptySchema c8_t c8_s1 (by decide)).2.1⟩

/-- C9: the generation methods are read-only: any sequence of
`generateSQLSchema`, `generateTypeScript` and `generateDropSQL` calls,
threaded through the registry state, returns the state unchanged, and
every call produces the same output as a standalone call on the original
state — so the generators may be called repeatedly and in any interleaved
order, and the registry changes only through the registration methods. -/
theorem generators_read_only (s : V1.PTSchema) (ops : List V1.GenOp) :
    (V1.runGens s ops).2 = s ∧
    (V1.runGens s ops).1 = ops.map (V1.genOutput s) := by
  induction ops with
  | nil => exact ⟨rfl, rfl⟩
  | cons op rest ih =>
    simp only [V1.runGens, V1.runGen, List.map_cons]
    exact ⟨ih.1, by rw [ih.2]⟩

/-- C10: every successful `generateSQLSchema()` output starts with the
SQL `BEGIN AUTO GENERATED CONTENT BY scuffed-orm -- DO NOT EDIT` banner
and ends with the matching END banner, and every successful
`generateTypeScript()` output is likewise wrapped in the block-comment
banners — for every registry state, the empty one included. -/
theorem generated_output_wrapped_in_banners (s : V1.PTSchema) :
    (∀ out, V1.generateSQLSchema s = .ok out →
      (∃ r, out = V1.sqlAutoGenNotice true ++ r) ∧
      ∃ p, out = p ++ V1.sqlAutoGenNotice false) ∧
    (∀ out, V1.generateTypeScript s = .ok out →
      (∃ r, out = V1.tsAutoGenNotice true ++ r) ∧
      ∃ p, out = p ++ V1.tsAutoGenNotice false) := by
  constructor
  · intro out hok
    unfold V1.generateSQLSchema at hok
    cases hv : V1.validate s with
    | some e =>
      rw [hv] at hok
      exact absurd hok (by simp)
    | none =>
      rw [hv] at hok
      have hout := (Except.ok.inj hok).symm
      constructor
      · refine ⟨newlinePad (V1.sqlExtensionsBlock s) ++
          (newlinePad (V1.sqlTypeDefsBlock s) ++
            (V1.sqlTableDefsBlock s ++ V1.sqlAutoGenNotice false)), ?_⟩
        rw [hout]
        simp [String.append_assoc]
      · exact ⟨V1.sqlAutoGenNotice true ++
          newlinePad (V1.sqlExtensionsBlock s) ++
          newlinePad (V1.sqlTypeDefsBlock s) ++ V1.sqlTableDefsBlock s, hout⟩
  · intro out hok
    unfold V1.generateTypeScript at hok
    cases hv : V1.validate s with
    | some e =>
      rw [hv] at hok
      exact absurd hok (by simp)
    | none =>
      rw [hv] at hok
      have hout := (Except.ok.inj hok).symm
      constructor
      · refine ⟨newlinePad (V1.tsCustomTypeDefsBlock s) ++
          (V1.tsTableDefsBlock s ++ V1.tsAutoGenNotice false), ?_⟩
        rw [hout]
        simp [String.append_assoc]
      · exact ⟨V1.tsAutoGenNotice true ++
          newlinePad (V1.tsCustomTypeDefsBlock s) ++
          V1.tsTableDefsBlock s, hout⟩

/-- C10 witness: on the empty registry both generators succeed and their
outputs carry the BEGIN/END banners. -/
theorem generated_output_wrapped_in_banners_witness :
    ((∃ r, c10_sqlOut = V1.sqlAutoGenNotice true ++ r) ∧
      ∃ p, c10_sqlOut = p ++ V1.sqlAutoGenNotice false) ∧
    ((∃ r, c10_tsOut = V1.tsAutoGenNotice true ++ r) ∧
      ∃ p, c10_tsOut = p ++ V1.tsAutoGenNotice false) :=
  ⟨(generated_output_wrapped_in_banners V1.emptySchema).1 c10_sqlOut rfl,
    (generated_output_wrapped_in_banners V1.emptySchema).2 c10_tsOut rfl⟩

end ScuffedORM
